import Mathlib

/-!
Verification development for the musicdb repository (Go): a versioned
resource store for music records with optimistic concurrency control,
entity validation, and a filter/sort/paginate listing query.

Shallow embedding conventions:
- Go `int64`, `int16`, `int32` and `int` are modelled as `Int` (no claim
  depends on overflow behaviour).
- Go `float32` popularity is modelled as `Rat`: only order comparisons with
  zero occur in the code, never arithmetic, so the ordered-field fragment is
  faithful (NaN is not representable; no claim mentions NaN).
- The stored table row keeps genres as `List (Option String)`: the SQL
  column is a text array whose elements may be NULL, scanned in Go as
  `[]sql.NullString`. The domain record `Music` holds a dense `List String`.
- A Go nil slice and an empty slice both collapse to `[]`; the only place
  the difference is observable is the error message text of the genres
  presence check, never the set of violated fields.
- Database effects are explicit: each store operation takes the table
  (a `List Row`) and returns the new table and/or an `Except` result.
  An unexpected storage failure is injected through a `fail : Bool` flag;
  the Go code returns the raw driver error there, which the handlers map
  to an Internal error response.
-/

namespace MusicDB

/-- The domain record, from `type Music struct` in src/internal/data/models.go.
`Genres` is `pq.StringArray`, i.e. a dense list of strings. -/
structure Music where
  Id : Int
  Title : String
  Duration : Int
  Popularity : Rat
  Genres : List String
  CreatedAt : Nat
  Version : Int
deriving Repr, DecidableEq

/-- A stored table row (schema in migrations): same fields as `Music`, but
the genres array may contain NULL elements, as permitted by `text[]`. -/
structure Row where
  Id : Int
  Title : String
  Duration : Int
  Popularity : Rat
  Genres : List (Option String)
  CreatedAt : Nat
  Version : Int
deriving Repr, DecidableEq

/-- Modelled from the spec: the `internal/validator` package is not under
src/ (only its callers are). Per the spec, the validator accumulates "a
mapping from field name to human-readable message"; the first message
recorded for a field is kept. Represented as an association list in
insertion order. -/
structure Validator where
  errors : List (String × String)
deriving Repr, DecidableEq

/-- Modelled from the spec: a fresh validator with no recorded violations. -/
def Validator.New : Validator := ⟨[]⟩

/-- Modelled from the spec: record a violation for `key` unless a message
for `key` is already present (one message per field in the mapping). -/
def Validator.AddError (v : Validator) (key message : String) : Validator :=
  if v.errors.any (fun e => e.1 = key) then v else ⟨v.errors ++ [(key, message)]⟩

/-- Modelled from the spec: record a violation for `key` when `ok` is false. -/
def Validator.Check (v : Validator) (ok : Bool) (key message : String) : Validator :=
  if ok then v else v.AddError key message

/-- Modelled from the spec: a candidate is valid iff the violation set is empty. -/
def Validator.Valid (v : Validator) : Bool := v.errors.isEmpty

/-- Some message is recorded for field `key`. -/
def Validator.HasError (v : Validator) (key : String) : Prop :=
  ∃ m, (key, m) ∈ v.errors

/-- Modelled from the spec: `validator.Unique` — no duplicate values,
case-sensitive exact match. -/
def Unique (xs : List String) : Bool := decide xs.Nodup

/-- `ValidateMovie` from src/internal/data/models.go lines 59-70, check for
check. The Go `movie.Genres != nil` presence check is rendered as
`movie.Genres ≠ []` (see the nil-slice convention above). -/
def ValidateMovie (v : Validator) (movie : Music) : Validator :=
  ((((((((((v.Check (movie.Title ≠ "") "title" "must be provided").Check
    (movie.Title.utf8ByteSize ≤ 500) "title" "must not be more than 500 bytes long").Check
    (movie.Duration ≠ 0) "duration" "must be provided").Check
    (movie.Duration > 0) "duration" "must be a positive integer").Check
    (movie.Popularity ≠ 0) "popularity" "must be provided").Check
    (movie.Popularity > 0) "popularity" "must be a positive number").Check
    (movie.Genres ≠ ([] : List String)) "genres" "must be provided").Check
    (movie.Genres.length ≥ 1) "genres" "must contain at least 1 genre").Check
    (movie.Genres.length ≤ 5) "genres" "must not contain more than 5 genres").Check
    (Unique movie.Genres) "genres" "must not contain duplicate values")

/-- Spec-side rule, following the words of the spec: title present (non-empty)
and at most 500 bytes. -/
def specTitleRule (m : Music) : Prop := m.Title ≠ "" ∧ m.Title.utf8ByteSize ≤ 500

/-- Spec-side rule: duration present (nonzero) and strictly positive. -/
def specDurationRule (m : Music) : Prop := m.Duration ≠ 0 ∧ m.Duration > 0

/-- Spec-side rule: popularity present (nonzero) and strictly positive. -/
def specPopularityRule (m : Music) : Prop := m.Popularity ≠ 0 ∧ m.Popularity > 0

/-- Spec-side rule: genres present, between 1 and 5 entries, no
case-sensitive duplicates. -/
def specGenresRule (m : Music) : Prop :=
  m.Genres ≠ [] ∧ 1 ≤ m.Genres.length ∧ m.Genres.length ≤ 5 ∧ m.Genres.Nodup

theorem hasError_AddError (v : Validator) (k msg j : String) :
    (v.AddError k msg).HasError j ↔ v.HasError j ∨ j = k := by
  unfold Validator.AddError Validator.HasError
  by_cases h : v.errors.any (fun e => decide (e.1 = k)) = true
  · rw [if_pos h]
    constructor
    · exact fun hj => Or.inl hj
    · rintro (hj | rfl)
      · exact hj
      · rcases List.any_eq_true.mp h with ⟨⟨k', m'⟩, hmem, hk⟩
        simp only [decide_eq_true_eq] at hk
        subst hk
        exact ⟨m', hmem⟩
  · rw [if_neg h]
    simp only [List.mem_append, List.mem_singleton, Prod.mk.injEq]
    constructor
    · rintro ⟨m', hm' | ⟨hj, _⟩⟩
      · exact Or.inl ⟨m', hm'⟩
      · exact Or.inr hj
    · rintro (⟨m', hm'⟩ | rfl)
      · exact ⟨m', Or.inl hm'⟩
      · exact ⟨msg, Or.inr ⟨rfl, rfl⟩⟩

theorem hasError_Check (v : Validator) (ok : Bool) (k msg j : String) :
    (v.Check ok k msg).HasError j ↔ v.HasError j ∨ (ok = false ∧ j = k) := by
  unfold Validator.Check
  cases ok with
  | true => simp
  | false => simp [hasError_AddError]

theorem valid_AddError (v : Validator) (k msg : String) :
    (v.AddError k msg).Valid = false := by
  unfold Validator.AddError Validator.Valid
  by_cases h : v.errors.any (fun e => decide (e.1 = k)) = true
  · rw [if_pos h]
    rcases List.any_eq_true.mp h with ⟨e, hmem, _⟩
    cases he : v.errors with
    | nil => rw [he] at hmem; exact absurd hmem (List.not_mem_nil e)
    | cons a l => simp [he]
  · rw [if_neg h]
    simp

theorem valid_Check (v : Validator) (ok : Bool) (k msg : String) :
    (v.Check ok k msg).Valid = (v.Valid && ok) := by
  unfold Validator.Check
  cases ok with
  | true => simp
  | false => simp [valid_AddError]

theorem hasError_New (j : String) : ¬ Validator.New.HasError j := by
  rintro ⟨m, hm⟩
  simp [Validator.New] at hm

/-- C5: the entity validator returns exactly the set of field-level
violations of the four rules (title, duration, popularity, genres), each
rule checked independently of the others, and the candidate is valid iff
no rule is violated. -/
theorem C5_validate_music_exact_violations (m : Music) (j : String) :
    ((ValidateMovie Validator.New m).HasError j ↔
      ((j = "title" ∧ ¬ specTitleRule m) ∨
       (j = "duration" ∧ ¬ specDurationRule m) ∨
       (j = "popularity" ∧ ¬ specPopularityRule m) ∨
       (j = "genres" ∧ ¬ specGenresRule m))) ∧
    ((ValidateMovie Validator.New m).Valid = true ↔
      (specTitleRule m ∧ specDurationRule m ∧ specPopularityRule m ∧ specGenresRule m)) := by
  have hnew : ¬ Validator.New.HasError j := hasError_New j
  have hvnew : Validator.New.Valid = true := rfl
  unfold ValidateMovie specTitleRule specDurationRule specPopularityRule specGenresRule
  simp only [hasError_Check, valid_Check, hvnew, Bool.true_and, Bool.and_eq_true,
    decide_eq_false_iff_not, decide_eq_true_eq, Unique, not_not]
  constructor
  · constructor
    · intro h
      rcases h with ((((((((((h | h) | h) | h) | h) | h) | h) | h) | h) | h) | h)
      · exact absurd h hnew
      all_goals tauto
    · intro h
      rcases h with ⟨hj, h⟩ | ⟨hj, h⟩ | ⟨hj, h⟩ | ⟨hj, h⟩ <;> subst hj <;>
        simp only [String.reduceEq, and_false, false_or, or_false, and_true, true_and] <;>
        tauto
  · constructor
    · rintro ⟨⟨⟨⟨⟨⟨⟨⟨⟨h1, h2⟩, h3⟩, h4⟩, h5⟩, h6⟩, h7⟩, h8⟩, h9⟩, h10⟩
      exact ⟨⟨h1, h2⟩, ⟨h3, h4⟩, ⟨h5, h6⟩, h7, h8, h9, h10⟩
    · rintro ⟨⟨h1, h2⟩, ⟨h3, h4⟩, ⟨h5, h6⟩, h7, h8, h9, h10⟩
      exact ⟨⟨⟨⟨⟨⟨⟨⟨⟨h1, h2⟩, h3⟩, h4⟩, h5⟩, h6⟩, h7⟩, h8⟩, h9⟩, h10⟩

/-- `Music.SanitizeGenres` from src/internal/data/models.go lines 50-57:
append every non-NULL entry of the scanned genre array, in order, to the
in-memory genre list, skipping NULL entries. -/
def Music.SanitizeGenres (m : Music) (genres : List (Option String)) : Music :=
  match genres with
  | [] => m
  | none :: rest => Music.SanitizeGenres m rest
  | some g :: rest => Music.SanitizeGenres { m with Genres := m.Genres ++ [g] } rest

/-- The typed error conditions of the store (src/internal/data/models.go
lines 8-11, plus the Internal condition the handlers map raw storage
errors to). -/
inductive StoreError where
  | recordNotFound
  | editConflict
  | internal
deriving Repr, DecidableEq

/-- The row-scan step shared by `Get` and `GetAll`: all columns are copied
into a fresh `Music` (whose genre list starts empty) and the nullable genre
array is compacted by `SanitizeGenres`. -/
def scanRow (r : Row) : Music :=
  Music.SanitizeGenres
    { Id := r.Id, Title := r.Title, Duration := r.Duration, Popularity := r.Popularity,
      Genres := [], CreatedAt := r.CreatedAt, Version := r.Version } r.Genres

/-- `MusicsModel.Insert` (models.go lines 76-83): the INSERT assigns the
next serial id, the current timestamp and version 1 atomically with the
write; RETURNING scans id, created_at and version back into the record. -/
def MusicsModel.Insert (db : List Row) (nextId : Int) (now : Nat) (mv : Music) :
    List Row × Music :=
  (db ++ [{ Id := nextId, Title := mv.Title, Duration := mv.Duration,
            Popularity := mv.Popularity, Genres := mv.Genres.map some,
            CreatedAt := now, Version := 1 }],
   { mv with Id := nextId, CreatedAt := now, Version := 1 })

/-- `MusicsModel.Get` (models.go lines 85-116): `id < 1` short-circuits to
NotFound before any query; otherwise the single row with that id is
fetched (ErrNoRows becomes NotFound, any other storage failure is returned
raw and surfaces as Internal); the scanned genres are sanitized. -/
def MusicsModel.Get (db : List Row) (fail : Bool) (id : Int) : Except StoreError Music :=
  if id < 1 then .error .recordNotFound
  else if fail then .error .internal
  else
    match db.find? (fun r => r.Id == id) with
    | none => .error .recordNotFound
    | some r => .ok (scanRow r)

/-- `MusicsModel.Update` (models.go lines 168-188): the conditional UPDATE
sets the new field values and `version = version + 1` on every row whose id
and stored version both equal the values carried in the request; RETURNING
scans the new version back into the record. Zero matched rows surface as
ErrNoRows, mapped to EditConflict. An injected storage failure leaves the
table unchanged and is returned raw (Internal at the handler). -/
def MusicsModel.Update (db : List Row) (fail : Bool) (ms : Music) :
    List Row × Except StoreError Music :=
  if fail then (db, .error .internal)
  else
    let rowMatches := fun (r : Row) => r.Id == ms.Id && r.Version == ms.Version
    let db' := db.map (fun r =>
      if rowMatches r then
        { r with Title := ms.Title, Duration := ms.Duration,
                 Popularity := ms.Popularity, Genres := ms.Genres.map some,
                 Version := r.Version + 1 }
      else r)
    match db.filter rowMatches with
    | [] => (db', .error .editConflict)
    | r :: _ => (db', .ok { ms with Version := r.Version + 1 })

/-- `MusicsModel.Delete` (models.go lines 190-211): `id < 1` short-circuits
to NotFound before any query; a storage failure is returned raw (Internal
at the handler); zero rows affected is NotFound. -/
def MusicsModel.Delete (db : List Row) (fail : Bool) (id : Int) :
    List Row × Except StoreError Unit :=
  if id < 1 then (db, .error .recordNotFound)
  else if fail then (db, .error .internal)
  else
    let db' := db.filter (fun r => !(r.Id == id))
    if db'.length == db.length then (db', .error .recordNotFound)
    else (db', .ok ())

theorem sanitizeGenres_eq (m : Music) (gs : List (Option String)) :
    (m.SanitizeGenres gs).Genres = m.Genres ++ gs.filterMap id := by
  induction gs generalizing m with
  | nil => simp [Music.SanitizeGenres]
  | cons g rest ih =>
    cases g with
    | none => simp [Music.SanitizeGenres, ih]
    | some s => simp [Music.SanitizeGenres, ih]

/-- C9: the genre-sanitizing step turns the nullable genre entries read
from storage into a dense list holding exactly the non-null entries in
their original order; consequently a record returned by `Get` carries the
compacted genre list of its row, with no null placeholder (nulls are not
even representable in the domain type). -/
theorem C9_sanitize_genres_dense (m : Music) (gs : List (Option String)) :
    (m.SanitizeGenres gs).Genres = m.Genres ++ gs.filterMap id ∧
    (∀ (db : List Row) (fail : Bool) (i : Int) (mm : Music),
      MusicsModel.Get db fail i = .ok mm →
      ∃ r ∈ db, mm.Genres = r.Genres.filterMap id) := by
  refine ⟨sanitizeGenres_eq m gs, ?_⟩
  intro db fail i mm hget
  unfold MusicsModel.Get at hget
  by_cases h1 : i < 1
  · rw [if_pos h1] at hget; cases hget
  · rw [if_neg h1] at hget
    cases fail with
    | true => simp at hget
    | false =>
      simp only [Bool.false_eq_true, if_false] at hget
      cases hf : db.find? (fun r => r.Id == i) with
      | none => rw [hf] at hget; cases hget
      | some r =>
        rw [hf] at hget
        refine ⟨r, List.mem_of_find?_eq_some hf, ?_⟩
        cases hget
        simpa using sanitizeGenres_eq
          { Id := r.Id, Title := r.Title, Duration := r.Duration,
            Popularity := r.Popularity, Genres := [], CreatedAt := r.CreatedAt,
            Version := r.Version } r.Genres

theorem C9_sanitize_genres_dense_witness :
    ∃ r ∈ [({ Id := 1, Title := "t", Duration := 1, Popularity := 1,
              Genres := [some "rock", none, some "pop"], CreatedAt := 0,
              Version := 1 } : Row)],
      (({ Id := 1, Title := "t", Duration := 1, Popularity := 1,
          Genres := ["rock", "pop"], CreatedAt := 0, Version := 1 } : Music)).Genres
        = r.Genres.filterMap id :=
  (C9_sanitize_genres_dense
    { Id := 0, Title := "", Duration := 0, Popularity := 0, Genres := [],
      CreatedAt := 0, Version := 0 } []).2
    [{ Id := 1, Title := "t", Duration := 1, Popularity := 1,
       Genres := [some "rock", none, some "pop"], CreatedAt := 0, Version := 1 }]
    false 1 _ rfl

theorem list_map_self {α : Type} {l : List α} {f : α → α}
    (h : ∀ a ∈ l, f a = a) : l.map f = l := by
  induction l with
  | nil => rfl
  | cons a t ih =>
    simp only [List.map_cons, h a (List.mem_cons_self a t),
      ih (fun b hb => h b (List.mem_cons_of_mem a hb))]

/-- C2: whenever the conditional write of `Update` matches zero rows — the
id is absent or the stored version differs from the version carried in the
request — the operation returns EditConflict and the table is unchanged. -/
theorem C2_stale_update_conflict (db : List Row) (ms : Music)
    (h : ∀ r ∈ db, ¬(r.Id = ms.Id ∧ r.Version = ms.Version)) :
    MusicsModel.Update db false ms = (db, .error .editConflict) := by
  unfold MusicsModel.Update
  have hmatch : ∀ r ∈ db, (r.Id == ms.Id && r.Version == ms.Version) = false := by
    intro r hr
    have := h r hr
    simp only [Bool.and_eq_false_iff, beq_eq_false_iff_ne, ne_eq]
    tauto
  have hfil : db.filter (fun r => r.Id == ms.Id && r.Version == ms.Version) = [] :=
    List.filter_eq_nil_iff.mpr (fun r hr => by simp [hmatch r hr])
  have hmap : db.map (fun r =>
      if r.Id == ms.Id && r.Version == ms.Version then
        { r with Title := ms.Title, Duration := ms.Duration,
                 Popularity := ms.Popularity, Genres := ms.Genres.map some,
                 Version := r.Version + 1 }
      else r) = db :=
    list_map_self (fun r hr => by rw [hmatch r hr]; simp)
  simp only [Bool.false_eq_true, if_false, hfil, hmap]

theorem C2_stale_update_conflict_witness :
    MusicsModel.Update
      [{ Id := 1, Title := "a", Duration := 1, Popularity := 1, Genres := [some "pop"],
         CreatedAt := 0, Version := 2 }] false
      { Id := 1, Title := "b", Duration := 1, Popularity := 1, Genres := ["pop"],
        CreatedAt := 0, Version := 1 }
    = ([{ Id := 1, Title := "a", Duration := 1, Popularity := 1, Genres := [some "pop"],
          CreatedAt := 0, Version := 2 }], .error .editConflict) :=
  C2_stale_update_conflict _ _ (by
    intro r hr
    simp only [List.mem_singleton] at hr
    subst hr
    intro hc
    exact absurd hc.2 (by decide))

/-- The row produced by applying the update request `ms` to stored row `r`. -/
def updatedRow (ms : Music) (r : Row) : Row :=
  { r with Title := ms.Title, Duration := ms.Duration,
           Popularity := ms.Popularity, Genres := ms.Genres.map some,
           Version := r.Version + 1 }

theorem update_fst (db : List Row) (ms : Music) :
    (MusicsModel.Update db false ms).1 =
      db.map (fun r =>
        if r.Id == ms.Id && r.Version == ms.Version then updatedRow ms r else r) := by
  unfold MusicsModel.Update updatedRow
  simp only [Bool.false_eq_true, if_false]
  cases db.filter (fun r => r.Id == ms.Id && r.Version == ms.Version) <;> rfl

theorem inj_of_nodup_map {l : List Row} (h : (l.map Row.Id).Nodup)
    {a b : Row} (ha : a ∈ l) (hb : b ∈ l) (hid : a.Id = b.Id) : a = b := by
  induction l with
  | nil => cases ha
  | cons x t ih =>
    simp only [List.map_cons, List.nodup_cons] at h
    rcases List.mem_cons.mp ha with rfl | ha' <;>
      rcases List.mem_cons.mp hb with rfl | hb'
    · rfl
    · exact absurd (hid ▸ List.mem_map_of_mem Row.Id hb') h.1
    · exact absurd (hid ▸ List.mem_map_of_mem Row.Id ha') h.1
    · exact ih h.2 ha' hb'

/-- C3: when the version carried in the request equals the stored version
of the row with that id, `Update` succeeds, the stored version becomes
exactly the old version plus one (the one matching row is rewritten to the
requested field values with version incremented once, every other row is
untouched), and the returned in-memory record carries the new version. -/
theorem C3_matching_update_increments_version (db : List Row) (ms : Music) (r : Row)
    (hmem : r ∈ db) (hid : r.Id = ms.Id) (hver : r.Version = ms.Version)
    (hnodup : (db.map Row.Id).Nodup) :
    (MusicsModel.Update db false ms).2 = .ok { ms with Version := ms.Version + 1 } ∧
    (∀ row ∈ (MusicsModel.Update db false ms).1, row.Id = ms.Id →
        row = updatedRow ms r ∧ row.Version = ms.Version + 1) ∧
    (∀ row ∈ db, row.Id ≠ ms.Id → row ∈ (MusicsModel.Update db false ms).1) ∧
    (∀ row ∈ (MusicsModel.Update db false ms).1, row.Id ≠ ms.Id → row ∈ db) := by
  have hingest : ∀ row ∈ db, (row.Id == ms.Id && row.Version == ms.Version) = true ↔ row = r := by
    intro row hrow
    constructor
    · intro hm
      simp only [Bool.and_eq_true, beq_iff_eq] at hm
      exact inj_of_nodup_map hnodup hrow hmem (hm.1.trans hid.symm)
    · rintro rfl
      simp [hid, hver]
  have hrfil : r ∈ db.filter (fun row => row.Id == ms.Id && row.Version == ms.Version) :=
    List.mem_filter.mpr ⟨hmem, by simp [hid, hver]⟩
  refine ⟨?_, ?_, ?_, ?_⟩
  · unfold MusicsModel.Update
    simp only [Bool.false_eq_true, if_false]
    cases hf : db.filter (fun row => row.Id == ms.Id && row.Version == ms.Version) with
    | nil => rw [hf] at hrfil; cases hrfil
    | cons a t =>
      have ha : a ∈ db.filter (fun row => row.Id == ms.Id && row.Version == ms.Version) := by
        rw [hf]; exact List.mem_cons_self a t
      have har := (hingest a (List.mem_filter.mp ha).1).mp (List.mem_filter.mp ha).2
      subst har
      simp [hver]
  · intro row hrow hrid
    rw [update_fst] at hrow
    rcases List.mem_map.mp hrow with ⟨row₀, hrow₀, hfeq⟩
    by_cases hm : (row₀.Id == ms.Id && row₀.Version == ms.Version) = true
    · have := (hingest row₀ hrow₀).mp hm
      subst this
      rw [if_pos hm] at hfeq
      subst hfeq
      exact ⟨rfl, by simp [updatedRow, hver]⟩
    · rw [if_neg hm] at hfeq
      subst hfeq
      have hre : row₀ = r := inj_of_nodup_map hnodup hrow₀ hmem (hrid.trans hid.symm)
      subst hre
      exact absurd ((hingest row₀ hrow₀).mpr rfl) hm
  · intro row hrow hrid
    rw [update_fst]
    have hm : (row.Id == ms.Id && row.Version == ms.Version) = false := by
      simp only [Bool.and_eq_false_iff, beq_eq_false_iff_ne, ne_eq]
      exact Or.inl hrid
    have hmm := List.mem_map_of_mem (fun r =>
      if r.Id == ms.Id && r.Version == ms.Version then updatedRow ms r else r) hrow
    simp only [hm, Bool.false_eq_true, if_false] at hmm
    exact hmm
  · intro row hrow hrid
    rw [update_fst] at hrow
    rcases List.mem_map.mp hrow with ⟨row₀, hrow₀, hfeq⟩
    by_cases hm : (row₀.Id == ms.Id && row₀.Version == ms.Version) = true
    · rw [if_pos hm] at hfeq
      simp only [Bool.and_eq_true, beq_iff_eq] at hm
      have : row.Id = ms.Id := by rw [← hfeq]; exact hm.1
      exact absurd this hrid
    · rw [if_neg hm] at hfeq
      exact hfeq ▸ hrow₀

theorem C3_matching_update_increments_version_witness :
    ((MusicsModel.Update
        [{ Id := 1, Title := "a", Duration := 1, Popularity := 1,
           Genres := [some "pop"], CreatedAt := 0, Version := 3 }] false
        { Id := 1, Title := "b", Duration := 2, Popularity := 1, Genres := ["rock"],
          CreatedAt := 0, Version := 3 }).2
      = .ok { Id := 1, Title := "b", Duration := 2, Popularity := 1,
              Genres := ["rock"], CreatedAt := 0, Version := 4 }) ∧
    (∀ row ∈ (MusicsModel.Update
        [{ Id := 1, Title := "a", Duration := 1, Popularity := 1,
           Genres := [some "pop"], CreatedAt := 0, Version := 3 }] false
        { Id := 1, Title := "b", Duration := 2, Popularity := 1, Genres := ["rock"],
          CreatedAt := 0, Version := 3 }).1, row.Id = 1 → row.Version = 4) := by
  have h := C3_matching_update_increments_version
    [{ Id := 1, Title := "a", Duration := 1, Popularity := 1,
       Genres := [some "pop"], CreatedAt := 0, Version := 3 }]
    { Id := 1, Title := "b", Duration := 2, Popularity := 1, Genres := ["rock"],
      CreatedAt := 0, Version := 3 }
    { Id := 1, Title := "a", Duration := 1, Popularity := 1,
      Genres := [some "pop"], CreatedAt := 0, Version := 3 }
    (List.mem_singleton.mpr rfl) rfl rfl (by simp)
  exact ⟨h.1, fun row hrow hrid => ((h.2.1 row hrow hrid).2 : row.Version = 3 + 1)⟩

/-- C4: `Get` and `Delete` short-circuit every id below 1 to NotFound
without consulting storage; for id at least 1, an absent row is NotFound
for both (zero rows affected, for Delete), and an unexpected storage
failure is the Internal condition for both. -/
theorem C4_get_delete_error_taxonomy (db : List Row) (fail : Bool) (id : Int) :
    (id < 1 →
       MusicsModel.Get db fail id = .error .recordNotFound ∧
       (MusicsModel.Delete db fail id).2 = .error .recordNotFound) ∧
    (1 ≤ id → (∀ r ∈ db, r.Id ≠ id) →
       MusicsModel.Get db false id = .error .recordNotFound ∧
       (MusicsModel.Delete db false id).2 = .error .recordNotFound) ∧
    (1 ≤ id →
       MusicsModel.Get db true id = .error .internal ∧
       (MusicsModel.Delete db true id).2 = .error .internal) := by
  have hnl : ∀ {h : 1 ≤ id}, ¬ id < 1 := fun {h} => not_lt.mpr h
  refine ⟨fun hlt => ?_, fun hge hnone => ?_, fun hge => ?_⟩
  · unfold MusicsModel.Get MusicsModel.Delete
    rw [if_pos hlt, if_pos hlt]
    exact ⟨rfl, rfl⟩
  · unfold MusicsModel.Get MusicsModel.Delete
    rw [if_neg (hnl (h := hge)), if_neg (hnl (h := hge))]
    simp only [Bool.false_eq_true, if_false]
    have hfind : db.find? (fun r => r.Id == id) = none :=
      List.find?_eq_none.mpr (fun r hr => by simp [hnone r hr])
    have hfil : db.filter (fun r => !(r.Id == id)) = db :=
      List.filter_eq_self.mpr (fun r hr => by simp [hnone r hr])
    rw [hfind, hfil]
    simp
  · unfold MusicsModel.Get MusicsModel.Delete
    rw [if_neg (hnl (h := hge)), if_neg (hnl (h := hge))]
    exact ⟨rfl, rfl⟩

theorem C4_get_delete_error_taxonomy_witness :
    (MusicsModel.Get ([] : List Row) false 0 = .error .recordNotFound) ∧
    (MusicsModel.Get
       [{ Id := 2, Title := "a", Duration := 1, Popularity := 1,
          Genres := [], CreatedAt := 0, Version := 1 }] false 1
       = .error .recordNotFound) ∧
    ((MusicsModel.Delete
       [{ Id := 2, Title := "a", Duration := 1, Popularity := 1,
          Genres := [], CreatedAt := 0, Version := 1 }] false 1).2
       = .error .recordNotFound) ∧
    (MusicsModel.Get ([] : List Row) true 1 = .error .internal) :=
  ⟨((C4_get_delete_error_taxonomy [] false 0).1 (by decide)).1,
   ((C4_get_delete_error_taxonomy _ false 1).2.1 (by decide)
      (by intro r hr; simp only [List.mem_singleton] at hr; subst hr; decide)).1,
   ((C4_get_delete_error_taxonomy _ false 1).2.1 (by decide)
      (by intro r hr; simp only [List.mem_singleton] at hr; subst hr; decide)).2,
   ((C4_get_delete_error_taxonomy [] true 1).2.2 (by decide)).1⟩

/-- The concrete candidate record of the optimistic-concurrency scenario,
before insertion: title Song A, duration 200, popularity 1.5, genres pop. -/
def songA : Music :=
  { Id := 0, Title := "Song A", Duration := 200, Popularity := 3/2,
    Genres := ["pop"], CreatedAt := 0, Version := 0 }

/-- The table after inserting the scenario record, with assigned id 1. -/
def c1db : List Row := (MusicsModel.Insert [] 1 0 songA).1

/-- The scenario record as read back by `Get` after insertion. -/
def c1m : Music :=
  { Id := 1, Title := "Song A", Duration := 200, Popularity := 3/2,
    Genres := ["pop"], CreatedAt := 0, Version := 1 }

/-- C1: after inserting the scenario record, `Get` returns it at version 1;
an update carrying version 1 succeeds and returns version 2; repeating the
identical update request still carrying version 1 now yields EditConflict,
because the version carried in the request is compared against the stored
version, so the stale version is rejected. -/
theorem C1_scenario_stale_version_conflict :
    MusicsModel.Get c1db false 1 = .ok c1m ∧
    c1m.Version = 1 ∧
    (MusicsModel.Update c1db false { c1m with Title := "Song A2" }).2
      = .ok { c1m with Title := "Song A2", Version := 2 } ∧
    (MusicsModel.Update
        (MusicsModel.Update c1db false { c1m with Title := "Song A2" }).1 false
        { c1m with Title := "Song A2" }).2
      = .error .editConflict :=
  ⟨rfl, rfl, rfl, rfl⟩

/-- Pagination metadata, per the spec: current, first and last page, page
size, total record count. -/
structure Metadata where
  CurrentPage : Int
  PageSize : Int
  FirstPage : Int
  LastPage : Int
  TotalRecords : Int
deriving Repr, DecidableEq

/-- Modelled from the spec: `calculateMetadata` is repository code not under
src/ (only its call site in GetAll is). Per the spec it is the pure function
(total_records, page, page_size) to Metadata, with last_page the ceiling of
total_records over page_size when page_size is positive, and the all-zero
metadata whenever total_records is 0, regardless of page and page_size. -/
def calculateMetadata (totalRecords page pageSize : Int) : Metadata :=
  if totalRecords = 0 then
    { CurrentPage := 0, PageSize := 0, FirstPage := 0, LastPage := 0, TotalRecords := 0 }
  else
    { CurrentPage := page, PageSize := pageSize, FirstPage := 1,
      LastPage := ⌈(totalRecords : ℚ) / (pageSize : ℚ)⌉, TotalRecords := totalRecords }

/-- C7: the metadata calculator is a pure function of total, page and page
size: a zero total gives the all-zero metadata whatever page and page size
were supplied; a positive total with positive page size gives current page,
page size, first page 1, the total, and last page equal to the ceiling of
total over page size (characterized by the two inequalities); in particular
total 21 with page size 10 gives last page 3. -/
theorem C7_metadata_calculator (total page pageSize : Int) :
    (calculateMetadata 0 page pageSize =
      { CurrentPage := 0, PageSize := 0, FirstPage := 0, LastPage := 0, TotalRecords := 0 }) ∧
    (0 < total → 0 < pageSize →
      (calculateMetadata total page pageSize).CurrentPage = page ∧
      (calculateMetadata total page pageSize).PageSize = pageSize ∧
      (calculateMetadata total page pageSize).FirstPage = 1 ∧
      (calculateMetadata total page pageSize).TotalRecords = total ∧
      (calculateMetadata total page pageSize).LastPage = ⌈(total : ℚ) / (pageSize : ℚ)⌉ ∧
      pageSize * ((calculateMetadata total page pageSize).LastPage - 1) < total ∧
      total ≤ pageSize * (calculateMetadata total page pageSize).LastPage) ∧
    calculateMetadata 21 3 10 =
      { CurrentPage := 3, PageSize := 10, FirstPage := 1, LastPage := 3, TotalRecords := 21 } := by
  refine ⟨by simp [calculateMetadata], fun htotal hsize => ?_, ?_⟩
  · have hne : total ≠ 0 := ne_of_gt htotal
    have hql : (0 : ℚ) < (pageSize : ℚ) := by exact_mod_cast hsize
    have hqne : (pageSize : ℚ) ≠ 0 := ne_of_gt hql
    unfold calculateMetadata
    rw [if_neg hne]
    refine ⟨rfl, rfl, rfl, rfl, rfl, ?_, ?_⟩
    · show pageSize * (⌈(total : ℚ) / (pageSize : ℚ)⌉ - 1) < total
      have h1 : (⌈(total : ℚ) / (pageSize : ℚ)⌉ : ℚ) - 1 < (total : ℚ) / (pageSize : ℚ) := by
        have := Int.ceil_lt_add_one ((total : ℚ) / (pageSize : ℚ))
        linarith
      have h2 : (pageSize : ℚ) * ((⌈(total : ℚ) / (pageSize : ℚ)⌉ : ℚ) - 1)
          < (pageSize : ℚ) * ((total : ℚ) / (pageSize : ℚ)) :=
        mul_lt_mul_of_pos_left h1 hql
      rw [mul_div_cancel₀ _ hqne] at h2
      exact_mod_cast h2
    · show total ≤ pageSize * ⌈(total : ℚ) / (pageSize : ℚ)⌉
      have h1 : (total : ℚ) / (pageSize : ℚ) ≤ (⌈(total : ℚ) / (pageSize : ℚ)⌉ : ℚ) :=
        Int.le_ceil _
      have h2 : (pageSize : ℚ) * ((total : ℚ) / (pageSize : ℚ))
          ≤ (pageSize : ℚ) * (⌈(total : ℚ) / (pageSize : ℚ)⌉ : ℚ) :=
        mul_le_mul_of_nonneg_left h1 (le_of_lt hql)
      rw [mul_div_cancel₀ _ hqne] at h2
      exact_mod_cast h2
  · have hceil : ⌈(21 : ℚ) / (10 : ℚ)⌉ = 3 := by
      rw [Int.ceil_eq_iff]
      constructor <;> norm_num
    simp [calculateMetadata, hceil]

theorem C7_metadata_calculator_witness :
    (calculateMetadata 21 3 10).LastPage = ⌈(21 : ℚ) / (10 : ℚ)⌉ ∧
    (calculateMetadata 21 3 10).TotalRecords = 21 :=
  ⟨((C7_metadata_calculator 21 3 10).2.1 (by decide) (by decide)).2.2.2.2.1,
   ((C7_metadata_calculator 21 3 10).2.1 (by decide) (by decide)).2.2.2.1⟩

/-- Modelled from the spec: the Filter/Sort Specification (the `Filters`
type is repository code not under src/). `SortSafeList` is the declared
allow-list of sortable keys for the resource. -/
structure Filters where
  Page : Int
  PageSize : Int
  sort : String
  SortSafeList : List String
deriving Repr, DecidableEq

/-- Modelled from the spec: page and page_size must be positive integers,
page_size at most 100, and the sort key must be a member of the allow-list;
violations are recorded in the validator, not silently replaced. -/
def ValidateFilters (v : Validator) (f : Filters) : Validator :=
  (((v.Check (f.Page > 0) "page" "must be greater than zero").Check
    (f.PageSize > 0) "page_size" "must be greater than zero").Check
    (f.PageSize ≤ 100) "page_size" "must be a maximum of 100").Check
    (f.SortSafeList.contains f.sort) "sort" "invalid sort value"

/-- Modelled from the spec: the sort column is the sort key with a leading
minus sign removed. -/
def Filters.sortColumn (f : Filters) : String :=
  match f.sort.data with
  | '-' :: rest => String.mk rest
  | _ => f.sort

/-- Modelled from the spec: a leading minus sign on the sort key means
descending order on the column named after it. -/
def Filters.sortDescending (f : Filters) : Bool :=
  match f.sort.data with
  | '-' :: _ => true
  | _ => false

/-- Modelled from the spec: LIMIT is the page size. -/
def Filters.limit (f : Filters) : Int := f.PageSize

/-- Modelled from the spec: OFFSET is (page - 1) * page_size. -/
def Filters.offset (f : Filters) : Int := (f.Page - 1) * f.PageSize

/-- One-key page order with id tie-break: row `a` may be listed no later
than row `b` when its key comes strictly first in the requested direction,
or the keys are equal and the id of `a` is at most the id of `b`. -/
def lexLe {α : Type} [LinearOrder α] (desc : Bool) (ka kb : α) (ia ib : Int) : Bool :=
  if ka = kb then decide (ia ≤ ib)
  else if desc then decide (kb < ka) else decide (ka < kb)

theorem lexLe_trans {α : Type} [LinearOrder α] {desc : Bool} {ka kb kc : α}
    {ia ib ic : Int} (h1 : lexLe desc ka kb ia ib = true)
    (h2 : lexLe desc kb kc ib ic = true) : lexLe desc ka kc ia ic = true := by
  unfold lexLe at h1 h2 ⊢
  by_cases e1 : ka = kb
  · subst e1
    rw [if_pos rfl] at h1
    by_cases e2 : ka = kc
    · subst e2
      rw [if_pos rfl] at h2 ⊢
      simp only [decide_eq_true_eq] at h1 h2 ⊢
      exact le_trans h1 h2
    · rw [if_neg e2] at h2 ⊢
      exact h2
  · by_cases e2 : kb = kc
    · subst e2
      rw [if_neg e1] at h1 ⊢
      exact h1
    · rw [if_neg e1] at h1
      rw [if_neg e2] at h2
      by_cases e3 : ka = kc
      · subst e3
        cases desc with
        | false =>
          simp only [Bool.false_eq_true, if_false, decide_eq_true_eq] at h1 h2
          exact absurd h2 (not_lt_of_gt h1)
        | true =>
          simp only [if_true, decide_eq_true_eq] at h1 h2
          exact absurd h2 (not_lt_of_gt h1)
      · rw [if_neg e3]
        cases desc with
        | false =>
          simp only [Bool.false_eq_true, if_false, decide_eq_true_eq] at h1 h2 ⊢
          exact lt_trans h1 h2
        | true =>
          simp only [if_true, decide_eq_true_eq] at h1 h2 ⊢
          exact lt_trans h2 h1

theorem lexLe_total {α : Type} [LinearOrder α] (desc : Bool) (ka kb : α)
    (ia ib : Int) : (lexLe desc ka kb ia ib || lexLe desc kb ka ib ia) = true := by
  unfold lexLe
  by_cases e : ka = kb
  · subst e
    rw [if_pos rfl, if_pos rfl]
    rcases le_total ia ib with h | h <;> simp [h]
  · rw [if_neg e, if_neg (Ne.symm e)]
    rcases lt_or_gt_of_ne e with h | h <;> cases desc <;>
      simp [h, le_of_lt]

/-- The ORDER BY relation of the listing query: the resolved sort column in
the resolved direction, then id ascending as the deterministic tie-break. -/
def rowLe (f : Filters) (a b : Row) : Bool :=
  if f.sortColumn = "title" then lexLe f.sortDescending a.Title b.Title a.Id b.Id
  else if f.sortColumn = "duration" then lexLe f.sortDescending a.Duration b.Duration a.Id b.Id
  else if f.sortColumn = "popularity" then lexLe f.sortDescending a.Popularity b.Popularity a.Id b.Id
  else lexLe f.sortDescending a.Id b.Id a.Id b.Id

theorem rowLe_trans (f : Filters) (a b c : Row) (h1 : rowLe f a b = true)
    (h2 : rowLe f b c = true) : rowLe f a c = true := by
  unfold rowLe at h1 h2 ⊢
  by_cases e1 : f.sortColumn = "title"
  · rw [if_pos e1] at h1 h2 ⊢
    exact lexLe_trans h1 h2
  · rw [if_neg e1] at h1 h2 ⊢
    by_cases e2 : f.sortColumn = "duration"
    · rw [if_pos e2] at h1 h2 ⊢
      exact lexLe_trans h1 h2
    · rw [if_neg e2] at h1 h2 ⊢
      by_cases e3 : f.sortColumn = "popularity"
      · rw [if_pos e3] at h1 h2 ⊢
        exact lexLe_trans h1 h2
      · rw [if_neg e3] at h1 h2 ⊢
        exact lexLe_trans h1 h2

theorem rowLe_total (f : Filters) (a b : Row) :
    (rowLe f a b || rowLe f b a) = true := by
  unfold rowLe
  by_cases e1 : f.sortColumn = "title"
  · rw [if_pos e1, if_pos e1]; exact lexLe_total _ _ _ _ _
  · rw [if_neg e1, if_neg e1]
    by_cases e2 : f.sortColumn = "duration"
    · rw [if_pos e2, if_pos e2]; exact lexLe_total _ _ _ _ _
    · rw [if_neg e2, if_neg e2]
      by_cases e3 : f.sortColumn = "popularity"
      · rw [if_pos e3, if_pos e3]; exact lexLe_total _ _ _ _ _
      · rw [if_neg e3, if_neg e3]; exact lexLe_total _ _ _ _ _

/-- `MusicsModel.GetAll` (src/internal/data/models.go lines 118-166). The
single SQL query keeps the rows satisfying (full-text match on title OR
empty search string) AND (genre array contains the supplied list OR the
supplied list is empty), orders them by the resolved sort column and
direction with id ascending as tie-break, and windows them with LIMIT
page_size OFFSET (page-1)*page_size; every returned row carries
count(*) OVER(), the number of rows matching the predicates. The Go scan
loop starts totalRecords at 0 and overwrites it with the carried count once
per scanned row, sanitizes each row, and finally derives the Metadata from
totalRecords. The database full-text matcher is abstracted as the `fts`
parameter; the column collations are modelled by the Lean linear orders on
the column types. -/
def MusicsModel.GetAll (fts : String → String → Bool) (db : List Row)
    (title : String) (genres : List String) (filters : Filters) :
    List Music × Metadata :=
  let pred := fun (r : Row) =>
    (fts title r.Title || title == "") &&
    (genres.all (fun g => r.Genres.contains (some g)) || genres == ([] : List String))
  let matched := db.filter pred
  let sorted := matched.mergeSort (rowLe filters)
  let window := (sorted.drop filters.offset.toNat).take filters.limit.toNat
  let totalRecords : Int := if window.isEmpty then 0 else matched.length
  (window.map scanRow, calculateMetadata totalRecords filters.Page filters.PageSize)

/-- Spec-side listing predicate, following the words of the spec: with an
empty search string every row matches the text predicate, otherwise the
full-text matcher decides on the row title; with an empty genre list every
row matches the genre predicate, otherwise the row genre set must contain
every supplied genre (containment, so extra genres still match); the two
predicates are combined with logical AND. -/
def specListPred (fts : String → String → Bool) (search : String)
    (genres : List String) (r : Row) : Prop :=
  (search = "" ∨ fts search r.Title = true) ∧ (∀ g ∈ genres, (some g) ∈ r.Genres)

instance (fts : String → String → Bool) (search : String) (genres : List String)
    (r : Row) : Decidable (specListPred fts search genres r) :=
  inferInstanceAs (Decidable ((search = "" ∨ fts search r.Title = true) ∧
    (∀ g ∈ genres, (some g) ∈ r.Genres)))

theorem listPred_eq_spec (fts : String → String → Bool) (search : String)
    (genres : List String) (r : Row) :
    ((fts search r.Title || search == "") &&
      (genres.all (fun g => r.Genres.contains (some g)) || genres == ([] : List String)))
    = decide (specListPred fts search genres r) := by
  rw [Bool.eq_iff_iff]
  simp only [Bool.and_eq_true, Bool.or_eq_true, List.all_eq_true, beq_iff_eq,
    decide_eq_true_eq, specListPred, List.elem_eq_mem]
  constructor
  · rintro ⟨ht, hgen⟩
    refine ⟨?_, ?_⟩
    · rcases ht with hf | hs
      · exact Or.inr hf
      · exact Or.inl hs
    · rcases hgen with hall | hnil
      · exact fun g hgm => hall g hgm
      · subst hnil
        intro g hgm
        cases hgm
  · rintro ⟨ht, hgen⟩
    refine ⟨?_, Or.inl ?_⟩
    · rcases ht with hs | hf
      · exact Or.inr hs
      · exact Or.inl hf
    · exact fun g hgm => hgen g hgm

/-- C8 (amended): the listing query returns the window LIMIT page_size
OFFSET (page-1)*page_size of the filtered rows — exactly those satisfying
the text predicate AND the genre containment predicate — sorted by the
resolved sort column and direction with id ascending as tie-break; whenever
the returned window is non-empty the reported metadata is derived from the
count of all filtered rows (so TotalRecords is that count, independent of
the window position); when the window is empty the scan never observes the
carried count and the metadata is the all-zero metadata. -/
theorem C8_list_query_characterization (fts : String → String → Bool)
    (db : List Row) (search : String) (genres : List String) (f : Filters) :
    ∃ sorted : List Row,
      sorted.Perm (db.filter (fun r => decide (specListPred fts search genres r))) ∧
      sorted.Pairwise (fun a b => rowLe f a b = true) ∧
      (MusicsModel.GetAll fts db search genres f).1
        = ((sorted.drop f.offset.toNat).take f.limit.toNat).map scanRow ∧
      ((MusicsModel.GetAll fts db search genres f).1 ≠ [] →
        (MusicsModel.GetAll fts db search genres f).2.TotalRecords
          = (db.filter (fun r => decide (specListPred fts search genres r))).length) ∧
      ((MusicsModel.GetAll fts db search genres f).1 = [] →
        (MusicsModel.GetAll fts db search genres f).2
          = { CurrentPage := 0, PageSize := 0, FirstPage := 0, LastPage := 0,
              TotalRecords := 0 }) := by
  have hfil : db.filter (fun r =>
      (fts search r.Title || search == "") &&
      (genres.all (fun g => r.Genres.contains (some g)) || genres == ([] : List String)))
      = db.filter (fun r => decide (specListPred fts search genres r)) :=
    List.filter_congr (fun r _ => listPred_eq_spec fts search genres r)
  refine ⟨(db.filter (fun r => decide (specListPred fts search genres r))).mergeSort (rowLe f),
    List.mergeSort_perm _ _,
    @List.sorted_mergeSort Row (rowLe f)
      (fun a b c => rowLe_trans f a b c)
      (fun a b => rowLe_total f a b) _,
    ?_, ?_, ?_⟩
  · simp only [MusicsModel.GetAll]
    rw [hfil]
  · intro hne
    simp only [MusicsModel.GetAll] at hne ⊢
    rw [hfil] at hne ⊢
    have hwne : ¬ (((((db.filter (fun r => decide (specListPred fts search genres r))).mergeSort
        (rowLe f)).drop f.offset.toNat).take f.limit.toNat).isEmpty = true) := by
      intro hw
      rw [List.isEmpty_iff] at hw
      rw [hw] at hne
      exact hne rfl
    rw [if_neg hwne]
    have hlen : ¬ (((db.filter (fun r => decide (specListPred fts search genres r))).length : Int) = 0) := by
      intro h0
      have h0n : (db.filter (fun r => decide (specListPred fts search genres r))).length = 0 := by
        exact_mod_cast h0
      have hnil : db.filter (fun r => decide (specListPred fts search genres r)) = [] :=
        List.eq_nil_of_length_eq_zero h0n
      rw [hnil] at hwne
      exact hwne (by simp)
    unfold calculateMetadata
    rw [if_neg hlen]
  · intro hem
    simp only [MusicsModel.GetAll] at hem ⊢
    rw [hfil] at hem ⊢
    have hw : ((((db.filter (fun r => decide (specListPred fts search genres r))).mergeSort
        (rowLe f)).drop f.offset.toNat).take f.limit.toNat) = [] :=
      List.map_eq_nil_iff.mp hem
    rw [hw]
    simp [calculateMetadata]

/-- Modelled from the spec: the query parameters recognized by the Filter
Specification, as received by the list endpoint; a missing parameter is
`none`, and `genres` is the comma-separated list already split. -/
structure QueryString where
  title : Option String
  genres : Option (List String)
  page : Option String
  pageSize : Option String
  sort : Option String
deriving Repr, DecidableEq

/-- Modelled from the spec: read a string parameter, with a default for an
absent parameter (helper code not under src/; the defaults themselves are
the literals at the call sites in src/cmd/api/musics.go). -/
def readString (p : Option String) (d : String) : String := p.getD d

/-- Modelled from the spec: read a comma-separated parameter, with a
default for an absent parameter. -/
def readCSV (p : Option (List String)) (d : List String) : List String := p.getD d

/-- Modelled from the spec: read an integer parameter; an absent parameter
gives the default; a present value that does not parse as an integer
records a validation error for the key and gives the default. -/
def readInt (p : Option String) (d : Int) (v : Validator) (key : String) :
    Int × Validator :=
  match p with
  | none => (d, v)
  | some s =>
    match s.toInt? with
    | none => (d, v.AddError key "must be an integer value")
    | some i => (i, v)

/-- The sort allow-list fixed by the list handler
(src/cmd/api/musics.go line 177). -/
def sortSafeList : List String :=
  ["id", "title", "duration", "popularity", "-id", "-title", "-duration", "-popularity"]

/-- The filter specification assembled by `listMusicsHandler`
(src/cmd/api/musics.go lines 174-177): page defaults to 1, page_size to 20,
sort to id; the page parameter is read before page_size, threading the one
validator. -/
def listFilters (qs : QueryString) : Filters :=
  { Page := (readInt qs.page 1 Validator.New "page").1,
    PageSize := (readInt qs.pageSize 20 (readInt qs.page 1 Validator.New "page").2 "page_size").1,
    sort := readString qs.sort "id",
    SortSafeList := sortSafeList }

/-- The validator state after reading page and page_size and validating the
assembled filter specification, as in src/cmd/api/musics.go lines 169-179. -/
def listValidator (qs : QueryString) : Validator :=
  ValidateFilters
    (readInt qs.pageSize 20 (readInt qs.page 1 Validator.New "page").2 "page_size").2
    (listFilters qs)

/-- `listMusicsHandler` (src/cmd/api/musics.go lines 163-194): read the
query parameters with their defaults, validate the filter specification,
and only when it is valid run the listing query; otherwise return the
recorded field violations as the ValidationFailed response. -/
def listMusicsHandler (fts : String → String → Bool) (db : List Row)
    (qs : QueryString) : Except (List (String × String)) (List Music × Metadata) :=
  if (listValidator qs).Valid then
    .ok (MusicsModel.GetAll fts db (readString qs.title "") (readCSV qs.genres [])
      (listFilters qs))
  else .error (listValidator qs).errors

theorem errors_ne_nil_of_valid_false (v : Validator) (h : v.Valid = false) :
    v.errors ≠ [] := by
  unfold Validator.Valid at h
  intro hnil
  rw [hnil] at h
  simp at h

theorem readInt_valid_false (p : Option String) (d : Int) (v : Validator)
    (k : String) (h : v.Valid = false) : (readInt p d v k).2.Valid = false := by
  cases p with
  | none => simpa [readInt] using h
  | some s =>
    cases htoi : s.toInt? with
    | none => simp [readInt, htoi, valid_AddError]
    | some i => simpa [readInt, htoi] using h

theorem valid_ValidateFilters (v : Validator) (f : Filters) :
    (ValidateFilters v f).Valid =
      ((((v.Valid && decide (f.Page > 0)) && decide (f.PageSize > 0)) &&
        decide (f.PageSize ≤ 100)) && f.SortSafeList.contains f.sort) := by
  unfold ValidateFilters
  rw [valid_Check, valid_Check, valid_Check, valid_Check]

/-- C6: a sort parameter outside the fixed allow-list, or a page or
page_size parameter that is not a positive integer, or a page_size above
100, makes filter validation fail: the handler returns the ValidationFailed
condition with a non-empty violation set, and the listing query runs only
in the other branch, so query construction is never reached. -/
theorem C6_invalid_filters_rejected (fts : String → String → Bool) (db : List Row)
    (qs : QueryString)
    (h : (∃ s, qs.sort = some s ∧ s ∉ sortSafeList) ∨
         (∃ s, qs.page = some s ∧ ∀ i, s.toInt? = some i → i ≤ 0) ∨
         (∃ s, qs.pageSize = some s ∧ ∀ i, s.toInt? = some i → (i ≤ 0 ∨ 100 < i))) :
    ∃ errs, errs ≠ [] ∧ listMusicsHandler fts db qs = .error errs := by
  have hv : (listValidator qs).Valid = false := by
    unfold listValidator
    rw [valid_ValidateFilters]
    rcases h with ⟨s, hsome, hnot⟩ | ⟨s, hsome, hbad⟩ | ⟨s, hsome, hbad⟩
    · have hsort : (listFilters qs).SortSafeList.contains (listFilters qs).sort = false := by
        unfold listFilters
        rw [hsome]
        simp only [readString, Option.getD_some, List.elem_eq_mem]
        exact decide_eq_false hnot
      rw [hsort, Bool.and_false]
    · cases htoi : s.toInt? with
      | none =>
        have h1 : (readInt qs.page 1 Validator.New "page").2.Valid = false := by
          rw [hsome]
          simp [readInt, htoi, valid_AddError]
        rw [readInt_valid_false _ _ _ _ h1]
        simp
      | some i =>
        have h1 : (listFilters qs).Page = i := by
          unfold listFilters
          rw [hsome]
          simp [readInt, htoi]
        rw [h1, decide_eq_false (not_lt.mpr (hbad i htoi))]
        simp
    · cases htoi : s.toInt? with
      | none =>
        have h1 : (readInt qs.pageSize 20 (readInt qs.page 1 Validator.New "page").2
            "page_size").2.Valid = false := by
          rw [hsome]
          simp [readInt, htoi, valid_AddError]
        rw [h1]
        simp
      | some i =>
        have h1 : (listFilters qs).PageSize = i := by
          unfold listFilters
          rw [hsome]
          simp [readInt, htoi]
        rcases hbad i htoi with hle | hgt
        · rw [h1, decide_eq_false (not_lt.mpr hle)]
          simp
        · rw [h1, decide_eq_false (not_le.mpr hgt)]
          simp
  refine ⟨(listValidator qs).errors, errors_ne_nil_of_valid_false _ hv, ?_⟩
  unfold listMusicsHandler
  rw [hv]
  simp

theorem C6_invalid_filters_rejected_witness :
    ∃ errs, errs ≠ [] ∧
      listMusicsHandler (fun _ _ => false) []
        { title := none, genres := none, page := none, pageSize := none,
          sort := some "year" } = .error errs :=
  C6_invalid_filters_rejected (fun _ _ => false) []
    { title := none, genres := none, page := none, pageSize := none,
      sort := some "year" }
    (Or.inl ⟨"year", rfl, by decide⟩)

/-- C10: when every list query parameter is absent the handler fills in the
defaults — page 1, page size 20, sort ascending by id, empty title search,
empty genre list — the filter specification validates, and the listing
query runs with exactly those defaults; no ValidationFailed arises from
absent parameters. -/
theorem C10_list_defaults (fts : String → String → Bool) (db : List Row)
    (qs : QueryString) (ht : qs.title = none) (hg : qs.genres = none)
    (hp : qs.page = none) (hps : qs.pageSize = none) (hs : qs.sort = none) :
    listMusicsHandler fts db qs =
      .ok (MusicsModel.GetAll fts db "" []
        { Page := 1, PageSize := 20, sort := "id", SortSafeList := sortSafeList }) := by
  obtain ⟨t, g, p, ps, s⟩ := qs
  simp only at ht hg hp hps hs
  subst ht hg hp hps hs
  rfl

theorem C10_list_defaults_witness :
    listMusicsHandler (fun _ _ => false) []
      { title := none, genres := none, page := none, pageSize := none, sort := none }
      = .ok (MusicsModel.GetAll (fun _ _ => false) [] "" []
          { Page := 1, PageSize := 20, sort := "id", SortSafeList := sortSafeList }) :=
  C10_list_defaults (fun _ _ => false) []
    { title := none, genres := none, page := none, pageSize := none, sort := none }
    rfl rfl rfl rfl rfl

/-- A stored row matching the empty search and empty genre filter. -/
def c8row : Row :=
  { Id := 1, Title := "t", Duration := 1, Popularity := 1,
    Genres := [some "pop"], CreatedAt := 0, Version := 1 }

/-- A valid filter specification whose window (page 2, page size 10) starts
past the single matching row. -/
def c8filters : Filters :=
  { Page := 2, PageSize := 10, sort := "id", SortSafeList := sortSafeList }

/-- C8 counterexample: one stored row matches the predicates, but with the
window starting past it the returned page is empty and the reported
TotalRecords is 0, not 1 — the reported total is not independent of the
window, contradicting the claim as stated. -/
theorem C8_total_depends_on_window :
    (MusicsModel.GetAll (fun _ _ => true) [c8row] "" [] c8filters).2.TotalRecords = 0 ∧
    ([c8row].filter (fun r => decide (specListPred (fun _ _ => true) "" [] r))).length = 1 ∧
    (MusicsModel.GetAll (fun _ _ => true) [c8row] "" [] c8filters).2.TotalRecords
      ≠ (([c8row].filter (fun r => decide (specListPred (fun _ _ => true) "" [] r))).length : Int) := by
  have h1 : (MusicsModel.GetAll (fun _ _ => true) [c8row] "" [] c8filters).2.TotalRecords = 0 := by
    norm_num [MusicsModel.GetAll, calculateMetadata, Filters.offset, Filters.limit,
      c8filters, c8row, List.mergeSort_singleton]
  have h2 : ([c8row].filter
      (fun r => decide (specListPred (fun _ _ => true) "" [] r))).length = 1 := by
    rfl
  refine ⟨h1, h2, ?_⟩
  rw [h1, h2]
  decide

end MusicDB
